import Mathlib

/-!
Shallow embedding of `src/reviewer.py` (AI-Maintainer): a script that fetches a
pull-request diff, asks a chat-completion endpoint for a verdict, parses the
verdict text, and posts an APPROVE / REQUEST_CHANGES review to the GitHub API.

Python strings are modelled as Lean `String` (a list of Unicode code points),
which matches Python's code-point indexing and slicing.  `str.lower()` is
modelled per-character by `Char.toLower` (ASCII case mapping); this agrees with
Python on every character relevant to the compared ASCII keywords
("acceptable", "request changes").  Machine integers do not occur: all counts
are small naturals.
-/

/-- The whitespace set stripped by Python's `str.strip()` with no arguments:
the ASCII whitespace/control separators and the Unicode space characters. -/
def pyIsSpace (c : Char) : Bool :=
  decide ((9 ≤ c.toNat ∧ c.toNat ≤ 13) ∨ (28 ≤ c.toNat ∧ c.toNat ≤ 31) ∨
    c.toNat = 32 ∨ c.toNat = 133 ∨ c.toNat = 160 ∨ c.toNat = 5760 ∨
    (8192 ≤ c.toNat ∧ c.toNat ≤ 8202) ∨ c.toNat = 8232 ∨ c.toNat = 8233 ∨
    c.toNat = 8239 ∨ c.toNat = 8287 ∨ c.toNat = 12288)

/-- `review.strip()` on the underlying character list: drop whitespace from
both ends. -/
def stripList (l : List Char) : List Char :=
  ((l.dropWhile pyIsSpace).reverse.dropWhile pyIsSpace).reverse

/-- `review.strip()`. -/
def pyStrip (s : String) : String := ⟨stripList s.data⟩

/-- `s.lower()`, modelled per character (see module comment). -/
def pyLower (s : String) : String := ⟨s.data.map Char.toLower⟩

/-- Structural character-list version of `startswith`. -/
def listStarts : List Char → List Char → Bool
  | [], _ => true
  | _ :: _, [] => false
  | p :: ps, c :: cs => p == c && listStarts ps cs

/-- `s.startswith(p)`. -/
def pyStartsWith (s p : String) : Bool := listStarts p.data s.data

/-- `s[n:]` — Python slicing counts code points, as does `List.drop` on
`String.data`. -/
def strDrop (s : String) (n : Nat) : String := ⟨s.data.drop n⟩

/--
The verdict parsing step of `_push_review` (src/reviewer.py lines 107-114):

    review = review.strip()
    if review.lower().startswith("acceptable"):
        accepted = True
        tail_of_review = review[len("acceptable"):]
    elif review.lower().startswith("request changes"):
        tail_of_review = review[len("request changes"):]
    else:
        raise ValueError(f"Invalid response: {review}. It must start with
                           either 'acceptable' or 'request changes'")

`len("acceptable") = 10`, `len("request changes") = 15`.  The result pairs the
`accepted` flag with `tail_of_review`.
-/
def parseVerdict (review : String) : Except String (Bool × String) :=
  if pyStartsWith (pyLower (pyStrip review)) "acceptable" then
    .ok (true, strDrop (pyStrip review) 10)
  else if pyStartsWith (pyLower (pyStrip review)) "request changes" then
    .ok (false, strDrop (pyStrip review) 15)
  else
    .error ("Invalid response: " ++ pyStrip review ++
      ". It must start with either 'acceptable' or 'request changes'")

theorem strData_append (a b : String) : (a ++ b).data = a.data ++ b.data := by
  cases a; cases b; rfl

theorem dropWhile_append_all {p : Char → Bool} {l1 : List Char} (l2 : List Char)
    (h : ∀ c ∈ l1, p c = true) :
    (l1 ++ l2).dropWhile p = l2.dropWhile p := by
  induction l1 with
  | nil => rfl
  | cons c t ih =>
    simp only [List.cons_append, List.dropWhile_cons]
    rw [h c (List.mem_cons_self c t), if_pos rfl]
    exact ih fun c hc => h c (List.mem_cons_of_mem _ hc)

theorem dropWhile_eq_nil_of_all {p : Char → Bool} {l : List Char}
    (h : ∀ c ∈ l, p c = true) : l.dropWhile p = [] := by
  induction l with
  | nil => rfl
  | cons c t ih =>
    simp only [List.dropWhile_cons]
    rw [h c (List.mem_cons_self c t), if_pos rfl]
    exact ih fun c hc => h c (List.mem_cons_of_mem _ hc)

theorem dropWhile_append_split (p : Char → Bool) (l1 l2 : List Char) :
    (l1 ++ l2).dropWhile p =
      if l1.dropWhile p = [] then l2.dropWhile p else l1.dropWhile p ++ l2 := by
  induction l1 with
  | nil => simp
  | cons c t ih =>
    by_cases hc : p c = true
    · simpa [List.dropWhile_cons, hc] using ih
    · simp [List.dropWhile_cons, hc]

theorem stripList_pad (w1 l w2 : List Char)
    (h1 : ∀ c ∈ w1, pyIsSpace c = true) (h2 : ∀ c ∈ w2, pyIsSpace c = true) :
    stripList (w1 ++ l ++ w2) = stripList l := by
  unfold stripList
  rw [List.append_assoc, dropWhile_append_all _ h1, dropWhile_append_split]
  by_cases h : l.dropWhile pyIsSpace = []
  · simp [h, dropWhile_eq_nil_of_all h2]
  · rw [if_neg h, List.reverse_append,
      dropWhile_append_all _ fun c hc => h2 c (List.mem_reverse.mp hc)]

theorem pyStrip_pad (w1 s w2 : String)
    (h1 : ∀ c ∈ w1.data, pyIsSpace c = true)
    (h2 : ∀ c ∈ w2.data, pyIsSpace c = true) :
    pyStrip (w1 ++ s ++ w2) = pyStrip s := by
  show String.mk (stripList (w1 ++ s ++ w2).data) = String.mk (stripList s.data)
  rw [strData_append, strData_append, stripList_pad _ _ _ h1 h2]

/-- C5: the verdict parser trims leading/trailing whitespace, then checks the
prefixes "acceptable" and "request changes" case-insensitively;
"Acceptable, nice work" yields accepted with explanation ", nice work",
"Request Changes: add tests" yields rejected with explanation ": add tests",
and "Maybe?" fails with an invalid-verdict error embedding the offending
text. -/
theorem C5_parseVerdict_spec :
    (∀ w1 s w2 : String, (∀ c ∈ w1.data, pyIsSpace c = true) →
        (∀ c ∈ w2.data, pyIsSpace c = true) →
        parseVerdict (w1 ++ s ++ w2) = parseVerdict s)
    ∧ parseVerdict "Acceptable, nice work" = .ok (true, ", nice work")
    ∧ parseVerdict "Request Changes: add tests" = .ok (false, ": add tests")
    ∧ parseVerdict "Maybe?" = .error
        "Invalid response: Maybe?. It must start with either 'acceptable' or 'request changes'" := by
  refine ⟨?_, rfl, rfl, rfl⟩
  intro w1 s w2 h1 h2
  unfold parseVerdict
  rw [pyStrip_pad w1 s w2 h1 h2]

/-- C5 witness: the trim-invariance part applied at concrete padding. -/
theorem C5_witness :
    parseVerdict (" " ++ "Acceptable, nice work" ++ "\n") =
      parseVerdict "Acceptable, nice work" :=
  C5_parseVerdict_spec.1 " " "Acceptable, nice work" "\n" (by decide) (by decide)

/-- C9: any input whose stripped form starts (case-insensitively) with the
letters "acceptable" — even mid-word, with no word-boundary check — parses as
accepted with everything after those 10 characters as explanation. -/
theorem C9_no_word_boundary :
    (∀ s : String, pyStartsWith (pyLower (pyStrip s)) "acceptable" = true →
        parseVerdict s = .ok (true, strDrop (pyStrip s) 10))
    ∧ parseVerdict "Acceptable-ish" = .ok (true, "-ish")
    ∧ parseVerdict "acceptables" = .ok (true, "s") := by
  refine ⟨?_, rfl, rfl⟩
  intro s h
  unfold parseVerdict
  simp [h]

/-- C9 witness: the universal part applied at "Acceptable-ish". -/
theorem C9_witness :
    parseVerdict "Acceptable-ish" = .ok (true, strDrop (pyStrip "Acceptable-ish") 10) :=
  C9_no_word_boundary.1 "Acceptable-ish" (by rfl)

/-- C10: the explanation is sliced from the whitespace-stripped original text
(original casing preserved); lowercasing is only used for the prefix test.
"ACCEPTABLE, Fine" yields accepted with explanation ", Fine". -/
theorem C10_explanation_casing :
    (∀ s : String, ∀ b : Bool, ∀ e : String, parseVerdict s = .ok (b, e) →
        e = strDrop (pyStrip s) (if b then 10 else 15))
    ∧ parseVerdict "ACCEPTABLE, Fine" = .ok (true, ", Fine") := by
  refine ⟨?_, rfl⟩
  intro s b e h
  unfold parseVerdict at h
  split at h
  · simp only [Except.ok.injEq, Prod.mk.injEq] at h
    obtain ⟨hb, he⟩ := h
    subst hb
    subst he
    rfl
  · split at h
    · simp only [Except.ok.injEq, Prod.mk.injEq] at h
      obtain ⟨hb, he⟩ := h
      subst hb
      subst he
      rfl
    · exact Except.noConfusion h

/-- C10 witness: the universal part applied at "ACCEPTABLE, Fine". -/
theorem C10_witness :
    (", Fine" : String) = strDrop (pyStrip "ACCEPTABLE, Fine") (if true then 10 else 15) :=
  C10_explanation_casing.1 "ACCEPTABLE, Fine" true ", Fine" rfl

/-!
`extract_github_info` (src/reviewer.py lines 138-150):

    pattern = r'https://github.com/([^/]+)/([^/]+)/pull/(\d+)'
    match = re.match(pattern, url)
    if match: return {'owner': ..., 'repo': ..., 'pull_id': int(pull_id)}
    else: return None

`re.match` anchors at the start of the string only, not at the end, so the
pattern may match a proper leading part of the URL.  The unescaped `.` inside
`github.com` is the regex wildcard: it matches any character except a newline.
`[^/]+` greedily takes the characters up to the next `/` (it cannot cross one,
so the match is deterministic), and `\d+` greedily takes the leading digit run
(modelled as ASCII digits, the only digits the claims concern). -/

/-- One pattern character of the regex literal parts: `.` matches any
character except newline, every other character matches itself. -/
def patChar (p m : Char) : Prop := if p = '.' then m ≠ '\n' else m = p

/-- Match the literal part `p` of the regex (with `.` as wildcard) against the
front of `cs`, returning the remainder. -/
def matchPat : List Char → List Char → Option (List Char)
  | [], cs => some cs
  | _ :: _, [] => none
  | p :: ps, c :: cs =>
    if p = '.' then (if c = '\n' then none else matchPat ps cs)
    else if c = p then matchPat ps cs else none

/-- Match `([^/]+)/`: the greedy run of non-`/` characters (at least one),
followed by the literal `/`. -/
def takeSeg (cs : List Char) : Option (List Char × List Char) :=
  if cs.takeWhile (fun c => c != '/') = [] then none
  else
    match cs.dropWhile (fun c => c != '/') with
    | [] => none
    | c :: rest =>
      if c = '/' then some (cs.takeWhile (fun c => c != '/'), rest) else none

/-- Python `int()` on a string of ASCII digits. -/
def natOfDigits (ds : List Char) : Nat :=
  ds.foldl (fun n c => 10 * n + (c.toNat - 48)) 0

/-- The dictionary returned by `extract_github_info` on a match. -/
structure GithubInfo where
  owner : String
  repo : String
  pull_id : Nat
deriving DecidableEq

/-- `extract_github_info(url)`: apply the anchored-at-start regex; on a match
return owner, repo and the integer pull id; otherwise `None`. -/
def extract_github_info (url : String) : Option GithubInfo :=
  (matchPat "https://github.com/".data url.data).bind fun r0 =>
    (takeSeg r0).bind fun p1 =>
      (takeSeg p1.2).bind fun p2 =>
        (matchPat "pull/".data p2.2).bind fun r3 =>
          if r3.takeWhile Char.isDigit = [] then none
          else some ⟨⟨p1.1⟩, ⟨p2.1⟩, natOfDigits (r3.takeWhile Char.isDigit)⟩

/-- A nonempty segment without `/`, as matched by `([^/]+)`. -/
def validSeg (l : List Char) : Prop := l ≠ [] ∧ ∀ c ∈ l, (c != '/') = true

/-- A nonempty run of ASCII digits, as matched by `(\d+)`. -/
def validDigits (l : List Char) : Prop := l ≠ [] ∧ ∀ c ∈ l, c.isDigit = true

/-- The character data of `https://github.com/<owner>/<repo>/pull/<digits>`. -/
def mkPrUrlData (o r d : List Char) : List Char :=
  "https://github.com/".data ++ (o ++ '/' :: (r ++ '/' :: ("pull/".data ++ d)))

/-- The URL `https://github.com/<owner>/<repo>/pull/<digits>`. -/
def mkPrUrl (o r d : List Char) : String := ⟨mkPrUrlData o r d⟩

/-- Drop an exactly-literal front (no wildcard), used by the spec-side
conformance checker. -/
def dropLit : List Char → List Char → Option (List Char)
  | [], cs => some cs
  | _ :: _, [] => none
  | p :: ps, c :: cs => if c = p then dropLit ps cs else none

/-- Modelled from the spec: a URL conforms to the shape
`https://github.com/<owner>/<repo>/pull/<digits>` exactly — literal scheme and
host, two nonempty `/`-free segments, and a nonempty digit string that runs to
the very end of the URL. -/
def conformsToPattern (url : String) : Bool :=
  ((dropLit "https://github.com/".data url.data).bind fun r0 =>
    (takeSeg r0).bind fun p1 =>
      (takeSeg p1.2).bind fun p2 =>
        (dropLit "pull/".data p2.2).bind fun r3 =>
          some (decide (r3 ≠ [] ∧ ∀ c ∈ r3, c.isDigit = true))).getD false

theorem matchPat_self (p : List Char) : ∀ r : List Char, matchPat p (p ++ r) = some r := by
  induction p with
  | nil => intro r; rfl
  | cons c ps ih =>
    intro r
    by_cases hc : c = '.'
    · subst hc
      simp [matchPat, ih]
    · simp [matchPat, hc, ih]

theorem matchPat_sound {p : List Char} :
    ∀ {cs r : List Char}, matchPat p cs = some r →
      ∃ m, List.Forall₂ patChar p m ∧ cs = m ++ r := by
  induction p with
  | nil =>
    intro cs r h
    exact ⟨[], List.Forall₂.nil, by simpa [matchPat] using h⟩
  | cons c ps ih =>
    intro cs r h
    cases cs with
    | nil => exact absurd h (by simp [matchPat])
    | cons x xs =>
      by_cases hc : c = '.'
      · subst hc
        by_cases hx : x = '\n'
        · rw [matchPat, if_pos rfl, if_pos hx] at h
          exact absurd h (by simp)
        · rw [matchPat, if_pos rfl, if_neg hx] at h
          obtain ⟨m, hm, hcs⟩ := ih h
          exact ⟨x :: m, List.Forall₂.cons (by simp [patChar, hx]) hm, by simp [hcs]⟩
      · by_cases hx : x = c
        · rw [matchPat, if_neg hc, if_pos hx] at h
          obtain ⟨m, hm, hcs⟩ := ih h
          exact ⟨x :: m, List.Forall₂.cons (by simp [patChar, hc, hx]) hm, by simp [hcs]⟩
        · rw [matchPat, if_neg hc, if_neg hx] at h
          exact absurd h (by simp)

theorem forall₂_patChar_noDot {p m : List Char} (hp : ∀ c ∈ p, c ≠ '.')
    (hf : List.Forall₂ patChar p m) : m = p := by
  induction hf with
  | nil => rfl
  | cons hab hrest ih =>
    rename_i a b l1 l2
    have ha : a ≠ '.' := hp a (List.mem_cons_self a l1)
    rw [patChar, if_neg ha] at hab
    rw [hab, ih fun c hc => hp c (List.mem_cons_of_mem _ hc)]

theorem takeWhile_append_all {p : Char → Bool} {l1 : List Char} (l2 : List Char)
    (h : ∀ c ∈ l1, p c = true) :
    (l1 ++ l2).takeWhile p = l1 ++ l2.takeWhile p := by
  induction l1 with
  | nil => rfl
  | cons c t ih =>
    simp only [List.cons_append, List.takeWhile_cons]
    rw [h c (List.mem_cons_self c t), if_pos rfl,
      ih fun c hc => h c (List.mem_cons_of_mem _ hc)]

theorem takeSeg_mk {o : List Char} (rest : List Char) (ho : validSeg o) :
    takeSeg (o ++ '/' :: rest) = some (o, rest) := by
  have ht : (o ++ '/' :: rest).takeWhile (fun c => c != '/') = o := by
    rw [takeWhile_append_all _ ho.2]
    simp [List.takeWhile_cons]
  have hd : (o ++ '/' :: rest).dropWhile (fun c => c != '/') = '/' :: rest := by
    rw [dropWhile_append_all _ ho.2]
    simp [List.dropWhile_cons]
  rw [takeSeg, ht, hd]
  simp [ho.1]

theorem takeSeg_sound {cs s r : List Char} (h : takeSeg cs = some (s, r)) :
    cs = s ++ '/' :: r ∧ validSeg s := by
  rw [takeSeg] at h
  split at h
  · exact absurd h (by simp)
  · rename_i hne
    split at h
    · exact absurd h (by simp)
    · rename_i c rest hdrop
      split at h
      · rename_i hc
        simp only [Option.some.injEq, Prod.mk.injEq] at h
        obtain ⟨hs, hr⟩ := h
        subst hs
        subst hr
        refine ⟨?_, hne, fun a ha => List.mem_takeWhile_imp (p := fun c => c != '/') ha⟩
        conv_lhs => rw [← List.takeWhile_append_dropWhile (p := fun c => c != '/') (l := cs)]
        rw [hdrop, hc]
      · exact absurd h (by simp)

theorem dropLit_self (p : List Char) : ∀ r : List Char, dropLit p (p ++ r) = some r := by
  induction p with
  | nil => intro r; rfl
  | cons c ps ih => intro r; simp [dropLit, ih]

theorem extract_prefix_match (o r d rest : List Char) (ho : validSeg o)
    (hr : validSeg r) (hd : validDigits d)
    (hrest : rest.takeWhile Char.isDigit = []) :
    extract_github_info ⟨mkPrUrlData o r d ++ rest⟩ =
      some ⟨⟨o⟩, ⟨r⟩, natOfDigits d⟩ := by
  have hassoc : mkPrUrlData o r d ++ rest =
      "https://github.com/".data ++
        (o ++ '/' :: (r ++ '/' :: ("pull/".data ++ (d ++ rest)))) := by
    simp [mkPrUrlData]
  have hdig : (d ++ rest).takeWhile Char.isDigit = d := by
    rw [takeWhile_append_all _ hd.2, hrest, List.append_nil]
  rw [extract_github_info]
  rw [show (String.mk (mkPrUrlData o r d ++ rest)).data = mkPrUrlData o r d ++ rest from rfl]
  rw [hassoc, matchPat_self, Option.some_bind, takeSeg_mk _ ho, Option.some_bind,
    takeSeg_mk _ hr, Option.some_bind, matchPat_self, Option.some_bind, hdig]
  simp [hd.1]

/-- The spec-side conformance checker accepts every URL of the exact shape. -/
theorem conformsToPattern_mk (o r d : List Char) (ho : validSeg o)
    (hr : validSeg r) (hd : validDigits d) :
    conformsToPattern (mkPrUrl o r d) = true := by
  have hassoc : mkPrUrlData o r d =
      "https://github.com/".data ++
        (o ++ '/' :: (r ++ '/' :: ("pull/".data ++ d))) := by
    simp [mkPrUrlData]
  rw [conformsToPattern]
  rw [show (mkPrUrl o r d).data = mkPrUrlData o r d from rfl]
  rw [hassoc, dropLit_self, Option.some_bind, takeSeg_mk _ ho, Option.some_bind,
    takeSeg_mk _ hr, Option.some_bind, dropLit_self, Option.some_bind,
    Option.getD_some]
  simpa using hd

theorem extract_sound (url : String) (info : GithubInfo)
    (h : extract_github_info url = some info) :
    ∃ host o r d rest, List.Forall₂ patChar "https://github.com/".data host ∧
      validSeg o ∧ validSeg r ∧ validDigits d ∧
      url.data = host ++ (o ++ '/' :: (r ++ '/' :: ("pull/".data ++ (d ++ rest)))) ∧
      info = ⟨⟨o⟩, ⟨r⟩, natOfDigits d⟩ := by
  rw [extract_github_info] at h
  rw [Option.bind_eq_some] at h
  obtain ⟨r0, h0, h⟩ := h
  rw [Option.bind_eq_some] at h
  obtain ⟨p1, h1, h⟩ := h
  rw [Option.bind_eq_some] at h
  obtain ⟨p2, h2, h⟩ := h
  rw [Option.bind_eq_some] at h
  obtain ⟨r3, h3, h⟩ := h
  obtain ⟨host, hhost, hurl⟩ := matchPat_sound h0
  obtain ⟨ho1, hseg1⟩ := takeSeg_sound (s := p1.1) (r := p1.2) (by simpa using h1)
  obtain ⟨ho2, hseg2⟩ := takeSeg_sound (s := p2.1) (r := p2.2) (by simpa using h2)
  obtain ⟨mp, hmp, hr2⟩ := matchPat_sound h3
  have hmp' : mp = "pull/".data := forall₂_patChar_noDot (by decide) hmp
  split at h
  · exact absurd h (by simp)
  · rename_i hne
    simp only [Option.some.injEq] at h
    refine ⟨host, p1.1, p2.1, r3.takeWhile Char.isDigit, r3.dropWhile Char.isDigit,
      hhost, hseg1, hseg2, ⟨hne, fun c hc => List.mem_takeWhile_imp hc⟩, ?_, h.symm⟩
    rw [hurl, ho1, ho2, hr2, hmp', List.takeWhile_append_dropWhile]

/-- C6 amended: for every URL of the exact form
`https://github.com/<owner>/<repo>/pull/<digits>` the parser returns exactly
that owner, repo and integer id; the same holds when the URL continues past
the digit run (with a non-digit), because `re.match` only anchors at the
start; and every successful parse decomposes the URL into a conforming
leading part (with the host `.` acting as a regex wildcard), so URLs with no
such leading part — and only those — yield no-match.  It never raises. -/
theorem C6_extract_github_info_amended :
    (∀ o r d : List Char, validSeg o → validSeg r → validDigits d →
        extract_github_info (mkPrUrl o r d) = some ⟨⟨o⟩, ⟨r⟩, natOfDigits d⟩)
    ∧ (∀ o r d rest : List Char, validSeg o → validSeg r → validDigits d →
        rest.takeWhile Char.isDigit = [] →
        extract_github_info ⟨mkPrUrlData o r d ++ rest⟩ =
          some ⟨⟨o⟩, ⟨r⟩, natOfDigits d⟩)
    ∧ (∀ (url : String) (info : GithubInfo), extract_github_info url = some info →
        ∃ host o r d rest, List.Forall₂ patChar "https://github.com/".data host ∧
          validSeg o ∧ validSeg r ∧ validDigits d ∧
          url.data = host ++ (o ++ '/' :: (r ++ '/' :: ("pull/".data ++ (d ++ rest)))) ∧
          info = ⟨⟨o⟩, ⟨r⟩, natOfDigits d⟩) := by
  refine ⟨?_, extract_prefix_match, extract_sound⟩
  intro o r d ho hr hd
  have h := extract_prefix_match o r d [] ho hr hd rfl
  simpa [mkPrUrl] using h

/-- C6 witness: the exact-form part applied at
`https://github.com/foo/bar/pull/116`. -/
theorem C6_witness :
    extract_github_info (mkPrUrl "foo".data "bar".data "116".data) =
      some ⟨"foo", "bar", 116⟩ := by
  have h := C6_extract_github_info_amended.1 "foo".data "bar".data "116".data
    (by unfold validSeg; decide) (by unfold validSeg; decide)
    (by unfold validDigits; decide)
  simpa using h

/-- C6 counterexample: `https://github.com/foo/bar/pull/116/files` does not
conform to the pattern (the text after `/pull/` is not a digit string), yet
the parser returns a match instead of the no-match the claim requires. -/
theorem C6_counterexample :
    extract_github_info "https://github.com/foo/bar/pull/116/files" =
      some ⟨"foo", "bar", 116⟩ ∧
    conformsToPattern "https://github.com/foo/bar/pull/116/files" = false := by
  exact ⟨by rfl, by rfl⟩

/-!
`create_chat_completion` (src/reviewer.py lines 153-216).  The network call
`openai.ChatCompletion.create(...)` is abstracted by a stub mapping the
attempt number to its outcome; the request payload (model, messages,
temperature, max_tokens) is fixed across the whole call.  Exception types not
caught by the two `except` clauses would also propagate immediately; the
claims only concern the caught ones, so the stub enumerates exactly
`RateLimitError`, `APIError` and `Timeout` (the latter two carrying the
`http_status` attribute the code inspects) besides success.

The loop body, per attempt:
  - on success the response is stored — there is NO `break`, so the loop
    keeps calling the API on later attempts;
  - on `RateLimitError` a user-facing warning is logged only if not yet
    warned (`warned_user`);
  - on `APIError`/`Timeout`: re-raise when `http_status != 502`, re-raise
    when this is the last attempt, otherwise fall through;
  - every non-raising iteration ends with `time.sleep(2 ** (attempt + 2))`.
After the loop, a `None` response only gets an error log; the subsequent
`response.choices[0]` then raises `AttributeError` (modelled as
`noneAttributeError`); an empty choices list raises `IndexError`.
-/

/-- The object returned by the OpenAI call: `choices[i].message["content"]`
is modelled as the string at position `i`. -/
structure ChatResponse where
  choices : List String
deriving DecidableEq

/-- Outcome of one `openai.ChatCompletion.create` call. -/
inductive ApiOutcome where
  | success (r : ChatResponse)
  | rateLimit
  | apiError (http_status : Option Nat)
  | timeout (http_status : Option Nat)
deriving DecidableEq

/-- The exception that escapes `create_chat_completion`. -/
inductive ChatError where
  | apiError (http_status : Option Nat)
  | timeout (http_status : Option Nat)
  | noneAttributeError
  | indexError
deriving DecidableEq

/-- Observable side effects of the retry loop, in order. -/
inductive Event where
  | call (attempt : Nat)
  | warn
  | sleep (seconds : Nat)
deriving DecidableEq

/-- A chat message `{role, content}`. -/
structure Message where
  role : String
  content : String
deriving DecidableEq

def isCall : Event → Bool
  | .call _ => true
  | _ => false

def isWarn : Event → Bool
  | .warn => true
  | _ => false

def numCalls (ev : List Event) : Nat := ev.countP isCall

def numWarns (ev : List Event) : Nat := ev.countP isWarn

def sleepsOf (ev : List Event) : List Nat :=
  ev.filterMap fun e => match e with
    | .sleep b => some b
    | _ => none

/-- The `for attempt in range(num_retries)` loop of `create_chat_completion`:
`attempt` is the current index, the second numeric argument the remaining
iterations (`10` and `10 - attempt` at the top-level call), `response` and
`warned_user` the two loop-carried variables.  `2 ^ (attempt + 2)` is the
`backoff` computed at the top of each iteration. -/
def chatAttempt (stub : Nat → ApiOutcome) (num_retries : Nat) :
    Nat → Nat → Option ChatResponse → Bool →
    Except ChatError (Option ChatResponse) × List Event
  | _, 0, response, _ => (.ok response, [])
  | attempt, n + 1, response, warned_user =>
    match stub attempt with
    | .success r =>
      ((chatAttempt stub num_retries (attempt + 1) n (some r) warned_user).1,
        .call attempt :: .sleep (2 ^ (attempt + 2)) ::
          (chatAttempt stub num_retries (attempt + 1) n (some r) warned_user).2)
    | .rateLimit =>
      if warned_user then
        ((chatAttempt stub num_retries (attempt + 1) n response true).1,
          .call attempt :: .sleep (2 ^ (attempt + 2)) ::
            (chatAttempt stub num_retries (attempt + 1) n response true).2)
      else
        ((chatAttempt stub num_retries (attempt + 1) n response true).1,
          .call attempt :: .warn :: .sleep (2 ^ (attempt + 2)) ::
            (chatAttempt stub num_retries (attempt + 1) n response true).2)
    | .apiError st =>
      if st ≠ some 502 then (.error (.apiError st), [.call attempt])
      else if attempt = num_retries - 1 then (.error (.apiError st), [.call attempt])
      else
        ((chatAttempt stub num_retries (attempt + 1) n response warned_user).1,
          .call attempt :: .sleep (2 ^ (attempt + 2)) ::
            (chatAttempt stub num_retries (attempt + 1) n response warned_user).2)
    | .timeout st =>
      if st ≠ some 502 then (.error (.timeout st), [.call attempt])
      else if attempt = num_retries - 1 then (.error (.timeout st), [.call attempt])
      else
        ((chatAttempt stub num_retries (attempt + 1) n response warned_user).1,
          .call attempt :: .sleep (2 ^ (attempt + 2)) ::
            (chatAttempt stub num_retries (attempt + 1) n response warned_user).2)

/-- `create_chat_completion(messages, model, temperature, max_tokens)` with
the network call abstracted by `stub`: run the 10-attempt loop starting with
`response = None` and `warned_user = False`, then evaluate
`response.choices[0].message["content"]`. -/
def create_chat_completion (stub : Nat → ApiOutcome) (messages : List Message)
    (model : String) (temperature : Nat) (max_tokens : Option Nat) :
    Except ChatError String × List Event :=
  match chatAttempt stub 10 0 10 none false with
  | (.error e, ev) => (.error e, ev)
  | (.ok none, ev) => (.error .noneAttributeError, ev)
  | (.ok (some r), ev) =>
    match r.choices with
    | [] => (.error .indexError, ev)
    | c :: _ => (.ok c, ev)

theorem chatAttempt_call_mem (stub : Nat → ApiOutcome) (nr k n : Nat)
    (resp : Option ChatResponse) (w : Bool) (h : 0 < n) :
    Event.call k ∈ (chatAttempt stub nr k n resp w).2 := by
  cases n with
  | zero => omega
  | succ m =>
    rw [chatAttempt]
    cases hstub : stub k with
    | success r => simp
    | rateLimit => cases w <;> simp
    | apiError st =>
      by_cases h1 : st = some 502
      · by_cases h2 : k = nr - 1 <;> simp [h1, h2]
      · simp [h1]
    | timeout st =>
      by_cases h1 : st = some 502
      · by_cases h2 : k = nr - 1 <;> simp [h1, h2]
      · simp [h1]

theorem chatAttempt_warns_of_warned (stub : Nat → ApiOutcome) (nr : Nat) :
    ∀ (n k : Nat) (resp : Option ChatResponse),
      numWarns (chatAttempt stub nr k n resp true).2 = 0 := by
  intro n
  induction n with
  | zero => intro k resp; rfl
  | succ m ih =>
    intro k resp
    rw [chatAttempt]
    cases hstub : stub k with
    | success r => simp [numWarns, List.countP_cons, isWarn] at ih ⊢; exact ih _ _
    | rateLimit => simp [numWarns, List.countP_cons, isWarn] at ih ⊢; exact ih _ _
    | apiError st =>
      by_cases h1 : st = some 502
      · by_cases h2 : k = nr - 1 <;>
          simp [h1, h2, numWarns, List.countP_cons, isWarn] at ih ⊢ <;>
          first
            | rfl
            | exact ih _ _
      · simp [h1, numWarns, List.countP_cons, isWarn]
    | timeout st =>
      by_cases h1 : st = some 502
      · by_cases h2 : k = nr - 1 <;>
          simp [h1, h2, numWarns, List.countP_cons, isWarn] at ih ⊢ <;>
          first
            | rfl
            | exact ih _ _
      · simp [h1, numWarns, List.countP_cons, isWarn]

theorem chatAttempt_warns_le (stub : Nat → ApiOutcome) (nr : Nat) :
    ∀ (n k : Nat) (resp : Option ChatResponse) (w : Bool),
      numWarns (chatAttempt stub nr k n resp w).2 ≤ 1 := by
  intro n
  induction n with
  | zero => intro k resp w; simp [chatAttempt, numWarns]
  | succ m ih =>
    intro k resp w
    cases hstub : stub k with
    | success r =>
      have he : (chatAttempt stub nr k (m + 1) resp w).2 =
          .call k :: .sleep (2 ^ (k + 2)) ::
            (chatAttempt stub nr (k + 1) m (some r) w).2 := by
        simp [chatAttempt, hstub]
      rw [he]
      simpa [numWarns, List.countP_cons, isWarn] using ih (k + 1) (some r) w
    | rateLimit =>
      cases w with
      | true =>
        have he : (chatAttempt stub nr k (m + 1) resp true).2 =
            .call k :: .sleep (2 ^ (k + 2)) ::
              (chatAttempt stub nr (k + 1) m resp true).2 := by
          simp [chatAttempt, hstub]
        rw [he]
        simpa [numWarns, List.countP_cons, isWarn] using ih (k + 1) resp true
      | false =>
        have he : (chatAttempt stub nr k (m + 1) resp false).2 =
            .call k :: .warn :: .sleep (2 ^ (k + 2)) ::
              (chatAttempt stub nr (k + 1) m resp true).2 := by
          simp [chatAttempt, hstub]
        have h0 := chatAttempt_warns_of_warned stub nr m (k + 1) resp
        rw [he]
        simp only [numWarns] at h0 ⊢
        simp [List.countP_cons, isWarn, h0]
    | apiError st =>
      by_cases h1 : st = some 502
      · by_cases h2 : k = nr - 1
        · subst h2
          have he : chatAttempt stub nr (nr - 1) (m + 1) resp w =
              (.error (.apiError st), [.call (nr - 1)]) := by
            simp [chatAttempt, hstub, h1]
          rw [he]
          simp [numWarns, List.countP_cons, isWarn]
        · have he : (chatAttempt stub nr k (m + 1) resp w).2 =
              .call k :: .sleep (2 ^ (k + 2)) ::
                (chatAttempt stub nr (k + 1) m resp w).2 := by
            simp [chatAttempt, hstub, h1, h2]
          rw [he]
          simpa [numWarns, List.countP_cons, isWarn] using ih (k + 1) resp w
      · have he : chatAttempt stub nr k (m + 1) resp w =
            (.error (.apiError st), [.call k]) := by
          simp [chatAttempt, hstub, h1]
        rw [he]
        simp [numWarns, List.countP_cons, isWarn]
    | timeout st =>
      by_cases h1 : st = some 502
      · by_cases h2 : k = nr - 1
        · subst h2
          have he : chatAttempt stub nr (nr - 1) (m + 1) resp w =
              (.error (.timeout st), [.call (nr - 1)]) := by
            simp [chatAttempt, hstub, h1]
          rw [he]
          simp [numWarns, List.countP_cons, isWarn]
        · have he : (chatAttempt stub nr k (m + 1) resp w).2 =
              .call k :: .sleep (2 ^ (k + 2)) ::
                (chatAttempt stub nr (k + 1) m resp w).2 := by
            simp [chatAttempt, hstub, h1, h2]
          rw [he]
          simpa [numWarns, List.countP_cons, isWarn] using ih (k + 1) resp w
      · have he : chatAttempt stub nr k (m + 1) resp w =
            (.error (.timeout st), [.call k]) := by
          simp [chatAttempt, hstub, h1]
        rw [he]
        simp [numWarns, List.countP_cons, isWarn]

theorem chatAttempt_sleeps (stub : Nat → ApiOutcome) (nr : Nat) :
    ∀ (n k : Nat) (resp : Option ChatResponse) (w : Bool) (b : Nat),
      b ∈ sleepsOf (chatAttempt stub nr k n resp w).2 →
      ∃ j, k ≤ j ∧ j < k + n ∧ b = 2 ^ (j + 2) := by
  intro n
  induction n with
  | zero => intro k resp w b hb; simp [chatAttempt, sleepsOf] at hb
  | succ m ih =>
    intro k resp w b hb
    have step : ∀ (resp' : Option ChatResponse) (w' : Bool),
        b ∈ sleepsOf (chatAttempt stub nr (k + 1) m resp' w').2 →
        ∃ j, k ≤ j ∧ j < k + (m + 1) ∧ b = 2 ^ (j + 2) := by
      intro resp' w' hrest
      obtain ⟨j, hj1, hj2, hj3⟩ := ih (k + 1) resp' w' b hrest
      exact ⟨j, by omega, by omega, hj3⟩
    cases hstub : stub k with
    | success r =>
      have he : (chatAttempt stub nr k (m + 1) resp w).2 =
          .call k :: .sleep (2 ^ (k + 2)) ::
            (chatAttempt stub nr (k + 1) m (some r) w).2 := by
        simp [chatAttempt, hstub]
      rw [he] at hb
      simp only [sleepsOf, List.filterMap_cons, List.mem_cons] at hb
      rcases hb with hb1 | hrest
      · exact ⟨k, le_refl k, by omega, hb1⟩
      · exact step (some r) w (by simpa [sleepsOf] using hrest)
    | rateLimit =>
      cases w with
      | true =>
        have he : (chatAttempt stub nr k (m + 1) resp true).2 =
            .call k :: .sleep (2 ^ (k + 2)) ::
              (chatAttempt stub nr (k + 1) m resp true).2 := by
          simp [chatAttempt, hstub]
        rw [he] at hb
        simp only [sleepsOf, List.filterMap_cons, List.mem_cons] at hb
        rcases hb with hb1 | hrest
        · exact ⟨k, le_refl k, by omega, hb1⟩
        · exact step resp true (by simpa [sleepsOf] using hrest)
      | false =>
        have he : (chatAttempt stub nr k (m + 1) resp false).2 =
            .call k :: .warn :: .sleep (2 ^ (k + 2)) ::
              (chatAttempt stub nr (k + 1) m resp true).2 := by
          simp [chatAttempt, hstub]
        rw [he] at hb
        simp only [sleepsOf, List.filterMap_cons, List.mem_cons] at hb
        rcases hb with hb1 | hrest
        · exact ⟨k, le_refl k, by omega, hb1⟩
        · exact step resp true (by simpa [sleepsOf] using hrest)
    | apiError st =>
      by_cases h1 : st = some 502
      · by_cases h2 : k = nr - 1
        · subst h2
          have he : chatAttempt stub nr (nr - 1) (m + 1) resp w =
              (.error (.apiError st), [.call (nr - 1)]) := by
            simp [chatAttempt, hstub, h1]
          rw [he] at hb
          simp [sleepsOf] at hb
        · have he : (chatAttempt stub nr k (m + 1) resp w).2 =
              .call k :: .sleep (2 ^ (k + 2)) ::
                (chatAttempt stub nr (k + 1) m resp w).2 := by
            simp [chatAttempt, hstub, h1, h2]
          rw [he] at hb
          simp only [sleepsOf, List.filterMap_cons, List.mem_cons] at hb
          rcases hb with hb1 | hrest
          · exact ⟨k, le_refl k, by omega, hb1⟩
          · exact step resp w (by simpa [sleepsOf] using hrest)
      · have he : chatAttempt stub nr k (m + 1) resp w =
            (.error (.apiError st), [.call k]) := by
          simp [chatAttempt, hstub, h1]
        rw [he] at hb
        simp [sleepsOf] at hb
    | timeout st =>
      by_cases h1 : st = some 502
      · by_cases h2 : k = nr - 1
        · subst h2
          have he : chatAttempt stub nr (nr - 1) (m + 1) resp w =
              (.error (.timeout st), [.call (nr - 1)]) := by
            simp [chatAttempt, hstub, h1]
          rw [he] at hb
          simp [sleepsOf] at hb
        · have he : (chatAttempt stub nr k (m + 1) resp w).2 =
              .call k :: .sleep (2 ^ (k + 2)) ::
                (chatAttempt stub nr (k + 1) m resp w).2 := by
            simp [chatAttempt, hstub, h1, h2]
          rw [he] at hb
          simp only [sleepsOf, List.filterMap_cons, List.mem_cons] at hb
          rcases hb with hb1 | hrest
          · exact ⟨k, le_refl k, by omega, hb1⟩
          · exact step resp w (by simpa [sleepsOf] using hrest)
      · have he : chatAttempt stub nr k (m + 1) resp w =
            (.error (.timeout st), [.call k]) := by
          simp [chatAttempt, hstub, h1]
        rw [he] at hb
        simp [sleepsOf] at hb

theorem chatAttempt_noSuccess (stub : Nat → ApiOutcome) (nr : Nat)
    (hs : ∀ j r, stub j ≠ .success r) :
    ∀ (n k : Nat) (w : Bool),
      (chatAttempt stub nr k n none w).1 = .ok none ∨
      ∃ e, (chatAttempt stub nr k n none w).1 = .error e := by
  intro n
  induction n with
  | zero => intro k w; exact Or.inl rfl
  | succ m ih =>
    intro k w
    rw [chatAttempt]
    cases hstub : stub k with
    | success r => exact absurd hstub (hs k r)
    | rateLimit => cases w <;> simpa using ih (k + 1) true
    | apiError st =>
      by_cases h1 : st = some 502
      · by_cases h2 : k = nr - 1
        · simp [h1, h2]
        · simpa [h1, h2] using ih (k + 1) w
      · simp [h1]
    | timeout st =>
      by_cases h1 : st = some 502
      · by_cases h2 : k = nr - 1
        · simp [h1, h2]
        · simpa [h1, h2] using ih (k + 1) w
      · simp [h1]

theorem create_events (stub : Nat → ApiOutcome) (messages : List Message)
    (model : String) (t : Nat) (mt : Option Nat) :
    (create_chat_completion stub messages model t mt).2 =
      (chatAttempt stub 10 0 10 none false).2 := by
  rw [create_chat_completion]
  rcases h : chatAttempt stub 10 0 10 none false with ⟨res, ev⟩
  cases res with
  | error e => simp
  | ok o =>
    cases o with
    | none => simp
    | some r => cases hr : r.choices <;> simp [hr]

theorem chatAttempt_raise_api (stub : Nat → ApiOutcome) (nr k n : Nat)
    (st : Option Nat) (resp : Option ChatResponse) (w : Bool)
    (hstub : stub k = .apiError st) (hst : ¬ st = some 502) :
    chatAttempt stub nr k (n + 1) resp w = (.error (.apiError st), [.call k]) := by
  simp [chatAttempt, hstub, hst]

theorem chatAttempt_raise_timeout (stub : Nat → ApiOutcome) (nr k n : Nat)
    (st : Option Nat) (resp : Option ChatResponse) (w : Bool)
    (hstub : stub k = .timeout st) (hst : ¬ st = some 502) :
    chatAttempt stub nr k (n + 1) resp w = (.error (.timeout st), [.call k]) := by
  simp [chatAttempt, hstub, hst]

theorem chatAttempt_step_502_api (stub : Nat → ApiOutcome) (nr k n : Nat)
    (resp : Option ChatResponse) (w : Bool)
    (hstub : stub k = .apiError (some 502)) (h2 : ¬ k = nr - 1) :
    chatAttempt stub nr k (n + 1) resp w =
      ((chatAttempt stub nr (k + 1) n resp w).1,
        .call k :: .sleep (2 ^ (k + 2)) ::
          (chatAttempt stub nr (k + 1) n resp w).2) := by
  simp [chatAttempt, hstub, h2]

theorem chatAttempt_step_502_timeout (stub : Nat → ApiOutcome) (nr k n : Nat)
    (resp : Option ChatResponse) (w : Bool)
    (hstub : stub k = .timeout (some 502)) (h2 : ¬ k = nr - 1) :
    chatAttempt stub nr k (n + 1) resp w =
      ((chatAttempt stub nr (k + 1) n resp w).1,
        .call k :: .sleep (2 ^ (k + 2)) ::
          (chatAttempt stub nr (k + 1) n resp w).2) := by
  simp [chatAttempt, hstub, h2]

/-- The predicate on event traces that C4's "sleeps only before retries"
expresses: every sleep is followed, later in the trace, by another API call. -/
def sleepsOnlyBeforeRetries : List Event → Bool
  | [] => true
  | .sleep _ :: rest => rest.any isCall && sleepsOnlyBeforeRetries rest
  | _ :: rest => sleepsOnlyBeforeRetries rest

/-- C1 amended: a caught `APIError` or `Timeout` is retried only when it
carries `http_status` 502 (and the attempt is not the last, which instead
re-raises); an `APIError` or `Timeout` whose `http_status` is anything else —
in particular a timeout with no status — propagates immediately after a
single call, with zero retries. -/
theorem C1_retry_amended :
    (∀ (stub : Nat → ApiOutcome) (messages : List Message) (model : String)
        (t : Nat) (mt : Option Nat) (st : Option Nat), st ≠ some 502 →
        stub 0 = .apiError st →
        create_chat_completion stub messages model t mt =
          (.error (.apiError st), [.call 0]))
    ∧ (∀ (stub : Nat → ApiOutcome) (messages : List Message) (model : String)
        (t : Nat) (mt : Option Nat) (st : Option Nat), st ≠ some 502 →
        stub 0 = .timeout st →
        create_chat_completion stub messages model t mt =
          (.error (.timeout st), [.call 0]))
    ∧ (∀ (stub : Nat → ApiOutcome) (messages : List Message) (model : String)
        (t : Nat) (mt : Option Nat), stub 0 = .apiError (some 502) →
        2 ≤ numCalls (create_chat_completion stub messages model t mt).2)
    ∧ (∀ (stub : Nat → ApiOutcome) (messages : List Message) (model : String)
        (t : Nat) (mt : Option Nat), stub 0 = .timeout (some 502) →
        2 ≤ numCalls (create_chat_completion stub messages model t mt).2)
    ∧ create_chat_completion (fun _ => .apiError (some 502)) [] "gpt-4" 0 none =
        (.error (.apiError (some 502)),
         [.call 0, .sleep 4, .call 1, .sleep 8, .call 2, .sleep 16, .call 3,
          .sleep 32, .call 4, .sleep 64, .call 5, .sleep 128, .call 6,
          .sleep 256, .call 7, .sleep 512, .call 8, .sleep 1024, .call 9]) := by
  refine ⟨?_, ?_, ?_, ?_, by rfl⟩
  · intro stub messages model t mt st hst hstub
    have h : chatAttempt stub 10 0 10 none false =
        (.error (.apiError st), [.call 0]) :=
      chatAttempt_raise_api stub 10 0 9 st none false hstub hst
    simp [create_chat_completion, h]
  · intro stub messages model t mt st hst hstub
    have h : chatAttempt stub 10 0 10 none false =
        (.error (.timeout st), [.call 0]) :=
      chatAttempt_raise_timeout stub 10 0 9 st none false hstub hst
    simp [create_chat_completion, h]
  · intro stub messages model t mt hstub
    rw [create_events]
    have he : (chatAttempt stub 10 0 10 none false).2 =
        .call 0 :: .sleep 4 :: (chatAttempt stub 10 1 9 none false).2 :=
      congrArg Prod.snd
        (chatAttempt_step_502_api stub 10 0 9 none false hstub (by decide))
    rw [he]
    have hmem : Event.call 1 ∈ (chatAttempt stub 10 1 9 none false).2 :=
      chatAttempt_call_mem stub 10 1 9 none false (by omega)
    simp [numCalls, List.countP_cons, isCall]
    exact ⟨Event.call 1, hmem, rfl⟩
  · intro stub messages model t mt hstub
    rw [create_events]
    have he : (chatAttempt stub 10 0 10 none false).2 =
        .call 0 :: .sleep 4 :: (chatAttempt stub 10 1 9 none false).2 :=
      congrArg Prod.snd
        (chatAttempt_step_502_timeout stub 10 0 9 none false hstub (by decide))
    rw [he]
    have hmem : Event.call 1 ∈ (chatAttempt stub 10 1 9 none false).2 :=
      chatAttempt_call_mem stub 10 1 9 none false (by omega)
    simp [numCalls, List.countP_cons, isCall]
    exact ⟨Event.call 1, hmem, rfl⟩

/-- C1 witness: a plain `APIError` with status 500 on the first attempt
propagates at once after one single call. -/
theorem C1_witness :
    create_chat_completion (fun _ => .apiError (some 500)) [] "gpt-4" 0 none =
      (.error (.apiError (some 500)), [.call 0]) :=
  C1_retry_amended.1 (fun _ => .apiError (some 500)) [] "gpt-4" 0 none
    (some 500) (by decide) rfl

/-- C1 counterexample: a timeout carrying no HTTP status (the normal shape of
a timeout) fails the first attempt — which is not the last of the 10 allowed
attempts — yet the error propagates immediately after exactly one call: the
client does not retry on this timeout signal. -/
theorem C1_counterexample :
    create_chat_completion (fun _ => .timeout none) [] "gpt-4" 0 none =
      (.error (.timeout none), [.call 0]) ∧
    numCalls (create_chat_completion (fun _ => .timeout none) [] "gpt-4" 0 none).2 = 1 :=
  ⟨rfl, rfl⟩

/-- Whether the chat-completion call ended in an exception. -/
def exceptIsError : Except ChatError String → Bool
  | .error _ => true
  | .ok _ => false

/-- C2: if no attempt ever succeeds, the call ends in an error — the absence
of a response is reported to the caller, never silently swallowed.  With the
always-502 stub the 10th attempt re-raises the last 502 failure after 10
calls; with the always-rate-limit stub the loop completes, `response` is
still `None`, and `response.choices` raises (modelled `noneAttributeError`),
again after 10 calls. -/
theorem C2_exhaustion_reported :
    (∀ (stub : Nat → ApiOutcome) (messages : List Message) (model : String)
        (t : Nat) (mt : Option Nat), (∀ j r, stub j ≠ .success r) →
        exceptIsError (create_chat_completion stub messages model t mt).1 = true)
    ∧ create_chat_completion (fun _ => .apiError (some 502)) [] "gpt-4" 0 (some 100) =
        (.error (.apiError (some 502)),
         [.call 0, .sleep 4, .call 1, .sleep 8, .call 2, .sleep 16, .call 3,
          .sleep 32, .call 4, .sleep 64, .call 5, .sleep 128, .call 6,
          .sleep 256, .call 7, .sleep 512, .call 8, .sleep 1024, .call 9])
    ∧ create_chat_completion (fun _ => .rateLimit) [] "gpt-4" 0 none =
        (.error .noneAttributeError,
         [.call 0, .warn, .sleep 4, .call 1, .sleep 8, .call 2, .sleep 16,
          .call 3, .sleep 32, .call 4, .sleep 64, .call 5, .sleep 128, .call 6,
          .sleep 256, .call 7, .sleep 512, .call 8, .sleep 1024, .call 9,
          .sleep 2048])
    ∧ numCalls (create_chat_completion (fun _ => .apiError (some 502)) [] "gpt-4" 0 (some 100)).2 = 10
    ∧ numCalls (create_chat_completion (fun _ => .rateLimit) [] "gpt-4" 0 none).2 = 10 := by
  refine ⟨?_, by rfl, by rfl, by rfl, by rfl⟩
  intro stub messages model t mt hs
  rcases hres : chatAttempt stub 10 0 10 none false with ⟨res, ev⟩
  rcases chatAttempt_noSuccess stub 10 hs 10 0 false with hok | ⟨e, he⟩
  · rw [hres] at hok
    simp only at hok
    subst hok
    simp [create_chat_completion, hres, exceptIsError]
  · rw [hres] at he
    simp only at he
    subst he
    simp [create_chat_completion, hres, exceptIsError]

/-- C2 witness: the universal part applied to the always-502 stub. -/
theorem C2_witness :
    exceptIsError (create_chat_completion (fun _ => .apiError (some 502))
      [] "gpt-4" 0 (some 100)).1 = true :=
  C2_exhaustion_reported.1 (fun _ => .apiError (some 502)) [] "gpt-4" 0 (some 100)
    (fun j r h => ApiOutcome.noConfusion h)

/-- C3: the user-facing rate-limit warning fires at most once per call (and
only on the first occurrence); a stub that rate-limits twice and then
succeeds with a fixed response neither aborts nor warns twice: the call
returns the content of the first choice of the successful response, and the
trace shows exactly one warning, placed at the first rate-limited attempt. -/
theorem C3_rate_limit_warning :
    (∀ (stub : Nat → ApiOutcome) (messages : List Message) (model : String)
        (t : Nat) (mt : Option Nat),
        numWarns (create_chat_completion stub messages model t mt).2 ≤ 1)
    ∧ (∀ (c : String) (cs : List String),
        create_chat_completion
          (fun k => if k < 2 then .rateLimit else .success ⟨c :: cs⟩)
          [] "gpt-4" 0 none =
        (.ok c,
         [.call 0, .warn, .sleep 4, .call 1, .sleep 8, .call 2, .sleep 16,
          .call 3, .sleep 32, .call 4, .sleep 64, .call 5, .sleep 128, .call 6,
          .sleep 256, .call 7, .sleep 512, .call 8, .sleep 1024, .call 9,
          .sleep 2048]))
    ∧ numWarns
        [.call 0, .warn, .sleep 4, .call 1, .sleep 8, .call 2, .sleep 16,
         .call 3, .sleep 32, .call 4, .sleep 64, .call 5, .sleep 128, .call 6,
         .sleep 256, .call 7, .sleep 512, .call 8, .sleep 1024, .call 9,
         .sleep 2048] = 1 := by
  refine ⟨?_, fun c cs => rfl, by rfl⟩
  intro stub messages model t mt
  rw [create_events]
  exact chatAttempt_warns_le stub 10 10 0 none false

/-- C4 amended: the client sleeps `2^(attemptIndex+2)` seconds after every
attempt that does not raise out of the loop — including after successful
attempts and after the final attempt, not only before retries (there is no
`break` on success) — so every sleep is one of `2^2 .. 2^11` and the maximum
single sleep is 2048 seconds; an all-success run sleeps all ten amounts. -/
theorem C4_backoff_amended :
    (∀ (stub : Nat → ApiOutcome) (messages : List Message) (model : String)
        (t : Nat) (mt : Option Nat) (b : Nat),
        b ∈ sleepsOf (create_chat_completion stub messages model t mt).2 →
        ∃ k, k < 10 ∧ b = 2 ^ (k + 2))
    ∧ (∀ (stub : Nat → ApiOutcome) (messages : List Message) (model : String)
        (t : Nat) (mt : Option Nat) (b : Nat),
        b ∈ sleepsOf (create_chat_completion stub messages model t mt).2 →
        b ≤ 2048)
    ∧ sleepsOf (create_chat_completion (fun _ => .success ⟨["ok"]⟩)
        [] "gpt-4" 0 none).2 =
        [4, 8, 16, 32, 64, 128, 256, 512, 1024, 2048] := by
  have h1 : ∀ (stub : Nat → ApiOutcome) (messages : List Message) (model : String)
      (t : Nat) (mt : Option Nat) (b : Nat),
      b ∈ sleepsOf (create_chat_completion stub messages model t mt).2 →
      ∃ k, k < 10 ∧ b = 2 ^ (k + 2) := by
    intro stub messages model t mt b hb
    rw [create_events] at hb
    obtain ⟨j, hj1, hj2, hj3⟩ := chatAttempt_sleeps stub 10 10 0 none false b hb
    exact ⟨j, by omega, hj3⟩
  refine ⟨h1, ?_, by rfl⟩
  intro stub messages model t mt b hb
  obtain ⟨k, hk, hbk⟩ := h1 stub messages model t mt b hb
  have : 2 ^ (k + 2) ≤ 2 ^ 11 := Nat.pow_le_pow_right (by omega) (by omega)
  omega

/-- C4 witness: a concrete sleep amount from an all-success run, bounded by
2048. -/
theorem C4_witness :
    2048 ∈ sleepsOf (create_chat_completion (fun _ => .success ⟨["ok"]⟩)
        [] "gpt-4" 0 none).2 ∧
    (2048 : Nat) ≤ 2048 :=
  ⟨by decide, C4_backoff_amended.2.1 (fun _ => .success ⟨["ok"]⟩) [] "gpt-4" 0 none
    2048 (by decide)⟩

/-- C4 counterexample: with a stub that succeeds on every attempt there are
no failures at all, yet the client sleeps after every one of its ten calls —
in particular a 2048-second sleep follows the final call with no retry after
it, so the claim that the client "sleeps only before retries" fails. -/
theorem C4_counterexample :
    create_chat_completion (fun _ => .success ⟨["ok"]⟩) [] "gpt-4" 0 none =
      (.ok "ok",
       [.call 0, .sleep 4, .call 1, .sleep 8, .call 2, .sleep 16, .call 3,
        .sleep 32, .call 4, .sleep 64, .call 5, .sleep 128, .call 6,
        .sleep 256, .call 7, .sleep 512, .call 8, .sleep 1024, .call 9,
        .sleep 2048]) ∧
    sleepsOnlyBeforeRetries
      (create_chat_completion (fun _ => .success ⟨["ok"]⟩) [] "gpt-4" 0 none).2 = false :=
  ⟨rfl, rfl⟩

/-!
Orchestration: `review_pr` (lines 17-48), `_process_diff` (lines 51-83) and
`_push_review` (lines 86-135).  The two HTTP endpoints are abstracted by a
`World`: `fetch` maps the requested URL to the `(status_code, text)` of
`requests.get`, `post` maps the posted review to the `(status_code, text)` of
`requests.post`, and `chat` is the chat-completion stub as above.  A
`ReviewTrace` records the chat-call events and the requests actually posted.
-/

/-- The review object POSTed to GitHub: the target URL and the JSON body
`{"event": ..., "body": ...}` (headers are ambient configuration). -/
structure PostRequest where
  url : String
  event : String
  body : String
deriving DecidableEq

/-- Exceptions escaping the orchestration, one per `raise` site: the
non-success diff fetch (`ValueError`), a chat-completion failure, the invalid
verdict (`ValueError`), subscripting the `None` returned by
`extract_github_info` (`TypeError`), and the non-success review POST
(`ValueError`). -/
inductive ReviewError where
  | fetchError (status : Nat) (text : String)
  | chatFailed (e : ChatError)
  | invalidVerdict (msg : String)
  | noneTypeError
  | publishError (status : Nat) (text : String)
deriving DecidableEq

/-- The ambient network: HTTP GET, the chat endpoint, and HTTP POST. -/
structure World where
  fetch : String → Nat × String
  chat : Nat → ApiOutcome
  post : PostRequest → Nat × String

/-- The fixed system prompt of `_process_diff` (lines 55-71). -/
def system_prompt : String :=
  "\nInstructions:\nYou are a github diff reviewer. Below is are the contribution guidelines for a project you are doing reviews for.\n\nThe user is going to provide you with a diff to review. Your job is to determine if the diff is acceptable or not. You have very high standards for accepting a diff.\n\nIf the diff is acceptable, respond with \"Acceptable\". If the diff is not acceptable, respond with \"Request Changes\" and explain the needed changes. \n\nBelow are guidelines for acceptable PRs.\n\n- Your pull request should be atomic and focus on a single change.\n- Your pull request should include tests for your change. We automatically enforce this with [CodeCov](https://docs.codecov.com/docs/commit-status)\n- You should have thoroughly tested your changes with multiple different prompts.\n- You should have considered potential risks and mitigations for your changes.\n- You should have documented your changes clearly and comprehensively.\n- You should not include any unrelated or \"extra\" small tweaks or changes.\n    "

/-- `_process_diff(diff)`: build the two-message prompt and call
`create_chat_completion` with model "gpt-4" and temperature 0. -/
def _process_diff (w : World) (diff : String) :
    Except ChatError String × List Event :=
  create_chat_completion w.chat
    [⟨"system", system_prompt⟩, ⟨"user", diff⟩] "gpt-4" 0 none

/-- The reviews endpoint
`https://api.github.com/repos/{owner}/{repo}/pulls/{pull_id}/reviews`. -/
def mkReviewsUrl (info : GithubInfo) : String :=
  "https://api.github.com/repos/" ++ info.owner ++ "/" ++ info.repo ++
    "/pulls/" ++ toString info.pull_id ++ "/reviews"

/-- The `requests.post` step of `_push_review`: the request is posted, then a
non-200 status raises `ValueError`. -/
def pushPost (w : World) (req : PostRequest) :
    Except ReviewError Unit × List PostRequest :=
  if (w.post req).1 ≠ 200 then
    (.error (.publishError (w.post req).1 (w.post req).2), [req])
  else (.ok (), [req])

/-- `_push_review(review, pr_link)`.  In the source `extract_github_info` is
called first (it never raises), then the verdict is parsed — an invalid
verdict raises before the `None` info is ever subscripted, which is the
observable order modelled by matching on the parse result first.  The review
body is `{"event": "APPROVE" if accepted else "REQUEST_CHANGES",
"body": tail_of_review}`. -/
def _push_review (w : World) (review pr_link : String) :
    Except ReviewError Unit × List PostRequest :=
  match parseVerdict review, extract_github_info pr_link with
  | .error msg, _ => (.error (.invalidVerdict msg), [])
  | .ok _, none => (.error .noneTypeError, [])
  | .ok ar, some info =>
    pushPost w ⟨mkReviewsUrl info,
      if ar.1 then "APPROVE" else "REQUEST_CHANGES", ar.2⟩

/-- What the orchestration did: the chat-call trace and the posted reviews. -/
structure ReviewTrace where
  chatEvents : List Event
  posted : List PostRequest
deriving DecidableEq

/-- `review_pr(pr_link)`: GET `{pr_link}.diff` and raise `ValueError` on a
non-200 status; otherwise run `_process_diff` on the body and push the
resulting verdict with `_push_review`, returning
"Successfully reviewed PR.". -/
def review_pr (w : World) (pr_link : String) :
    Except ReviewError String × ReviewTrace :=
  match w.fetch (pr_link ++ ".diff") with
  | (status, text) =>
    if status ≠ 200 then (.error (.fetchError status text), ⟨[], []⟩)
    else
      match _process_diff w text with
      | (.error e, ev) => (.error (.chatFailed e), ⟨ev, []⟩)
      | (.ok llm_response, ev) =>
        match _push_review w llm_response pr_link with
        | (.error e, posted) => (.error e, ⟨ev, posted⟩)
        | (.ok _, posted) => (.ok "Successfully reviewed PR.", ⟨ev, posted⟩)

theorem pushPost_posted (w : World) (req : PostRequest) :
    (pushPost w req).2 = [req] := by
  rw [pushPost]
  split <;> rfl

/-- C7: every posted review has event APPROVE exactly when the parsed verdict
was accepted (and its body is the parsed explanation); end to end, a 200 diff
fetch, the chat answer "acceptable - looks good" and the PR URL
`https://github.com/foo/bar/pull/116` produce exactly one POST of
`{"event": "APPROVE", "body": " - looks good"}` to
`https://api.github.com/repos/foo/bar/pulls/116/reviews`. -/
theorem C7_approve_iff_accepted :
    (∀ (w : World) (review pr_link : String) (b : Bool) (e : String)
        (req : PostRequest), parseVerdict review = .ok (b, e) →
        req ∈ (_push_review w review pr_link).2 →
        (req.event = "APPROVE" ↔ b = true) ∧ req.body = e)
    ∧ review_pr
        ⟨fun _ => (200, "some diff"),
         fun _ => .success ⟨["acceptable - looks good"]⟩,
         fun _ => (200, "")⟩ "https://github.com/foo/bar/pull/116" =
      (.ok "Successfully reviewed PR.",
       ⟨[.call 0, .sleep 4, .call 1, .sleep 8, .call 2, .sleep 16, .call 3,
         .sleep 32, .call 4, .sleep 64, .call 5, .sleep 128, .call 6,
         .sleep 256, .call 7, .sleep 512, .call 8, .sleep 1024, .call 9,
         .sleep 2048],
        [⟨"https://api.github.com/repos/foo/bar/pulls/116/reviews",
          "APPROVE", " - looks good"⟩]⟩) := by
  refine ⟨?_, by rfl⟩
  intro w review pr_link b e req hparse hmem
  cases hinfo : extract_github_info pr_link with
  | none => simp [_push_review, hparse, hinfo] at hmem
  | some info =>
    rw [_push_review] at hmem
    rw [hparse, hinfo] at hmem
    rw [pushPost_posted] at hmem
    simp only [List.mem_singleton] at hmem
    subst hmem
    cases b <;> simp

/-- C7 witness: the invariant applied to the end-to-end request. -/
theorem C7_witness :
    ((PostRequest.mk "https://api.github.com/repos/foo/bar/pulls/116/reviews"
        "APPROVE" " - looks good").event = "APPROVE" ↔ true = true) ∧
    (PostRequest.mk "https://api.github.com/repos/foo/bar/pulls/116/reviews"
        "APPROVE" " - looks good").body = " - looks good" :=
  C7_approve_iff_accepted.1
    ⟨fun _ => (200, ""), fun _ => .rateLimit, fun _ => (200, "")⟩
    "acceptable - looks good" "https://github.com/foo/bar/pull/116"
    true " - looks good"
    (PostRequest.mk "https://api.github.com/repos/foo/bar/pulls/116/reviews"
      "APPROVE" " - looks good")
    rfl (by decide)

/-- C8: a non-200 diff fetch makes the orchestration raise the fetch error
carrying that status code and body text, with an empty trace: no
chat-completion call is ever made and nothing is posted. -/
theorem C8_fetch_failure_aborts :
    ∀ (w : World) (pr_link : String) (status : Nat) (text : String),
      w.fetch (pr_link ++ ".diff") = (status, text) → status ≠ 200 →
      review_pr w pr_link = (.error (.fetchError status text), ⟨[], []⟩) ∧
      numCalls (review_pr w pr_link).2.chatEvents = 0 := by
  intro w pr status text hf hs
  have h : review_pr w pr = (.error (.fetchError status text), ⟨[], []⟩) := by
    rw [review_pr, hf]
    simp [hs]
  exact ⟨h, by rw [h]; rfl⟩

/-- C8 witness: a 404 diff fetch on the scenario URL. -/
theorem C8_witness :
    review_pr ⟨fun _ => (404, "Not Found"), fun _ => .rateLimit, fun _ => (200, "")⟩
        "https://github.com/foo/bar/pull/116" =
      (.error (.fetchError 404 "Not Found"), ⟨[], []⟩) ∧
    numCalls (review_pr
        ⟨fun _ => (404, "Not Found"), fun _ => .rateLimit, fun _ => (200, "")⟩
        "https://github.com/foo/bar/pull/116").2.chatEvents = 0 :=
  C8_fetch_failure_aborts
    ⟨fun _ => (404, "Not Found"), fun _ => .rateLimit, fun _ => (200, "")⟩
    "https://github.com/foo/bar/pull/116" 404 "Not Found" rfl (by decide)
